import Mathlib

/-!
Verification of the coding-prompts TUI core against its specification.

This file gives a shallow embedding of the program's core components:

* the gitignore pattern matcher (`internal/filesystem/gitignore.go`),
* the tree flattener (`internal/filesystem/scanner.go`),
* the file-tree panel cursor/viewport logic (`internal/tui/filetree.go`),
* the application state machine (`internal/tui/app.go`),
* the selected-files panel (`internal/tui/selected.go`),

and proves or refutes the stated behavioural claims about them.

Strings from the Go source are modelled as `List Char`; Go `int` is
modelled as `Int`; Go maps with boolean values are modelled as functions
into `Bool` (a missing key reads as `false`, as in Go).
-/

namespace CodingPrompts

/-! ## Gitignore pattern matcher (internal/filesystem/gitignore.go)

The Go code compiles each gitignore line to the regular expression

* `(^|/) body (/.*)?$`  for unanchored patterns, or
* `^ body (/.*)?$`      for patterns with a leading `/`,

where `body` is the pattern text with regex metacharacters quoted and
`**` replaced by `.*`, `*` by `[^/]*`, `?` by `[^/]`, and matching uses
Go's `regexp.MatchString` (a match may start anywhere; `.` matches any
character except newline).  The embedding below represents `body` as a
list of glob elements and implements that exact search semantics. -/

/-- Element of a compiled gitignore pattern body: a literal character, or
one of the three wildcard forms produced by `gitignoreToRegex`. -/
inductive Glob where
  /-- A literal (regex-quoted) character. -/
  | lit (c : Char)
  /-- Compiled from `*`: regex `[^/]*`. -/
  | star
  /-- Compiled from `**`: regex `.*`. -/
  | dstar
  /-- Compiled from `?`: regex `[^/]`. -/
  | qmark
deriving DecidableEq

/-- Translation of a gitignore pattern's characters into its compiled
body, mirroring the `QuoteMeta` + `ReplaceAll` steps of
`gitignoreToRegex`: `**` becomes `.*` (checked first), `*` becomes
`[^/]*`, `?` becomes `[^/]`, every other character is literal. -/
def globOfChars : List Char → List Glob
  | [] => []
  | '*' :: '*' :: rest => .dstar :: globOfChars rest
  | '*' :: rest => .star :: globOfChars rest
  | '?' :: rest => .qmark :: globOfChars rest
  | c :: rest => .lit c :: globOfChars rest

/-- Suffixes of `s` reachable by letting `[^/]*` consume zero or more
leading characters, none of which may be `/`. -/
def starSuffixes : List Char → List (List Char)
  | [] => [[]]
  | c :: t => (c :: t) :: (if c = '/' then [] else starSuffixes t)

/-- Suffixes of `s` reachable by letting `.*` consume zero or more
leading characters; Go's `.` matches any character except newline. -/
def dstarSuffixes : List Char → List (List Char)
  | [] => [[]]
  | c :: t => (c :: t) :: (if c = '\n' then [] else dstarSuffixes t)

/-- Matching of a compiled body against the front of `s`, with the
continuation `k` deciding whether the remainder is an acceptable
suffix.  This is the standard backtracking semantics of the regex
`body` followed by whatever `k` accepts. -/
def matchHere : List Glob → List Char → (List Char → Bool) → Bool
  | [], s, k => k s
  | g :: gs, s, k =>
    match g, s with
    | .lit c, x :: t => x == c && matchHere gs t k
    | .lit _, [] => false
    | .qmark, x :: t => !(x == '/') && matchHere gs t k
    | .qmark, [] => false
    | .star, _ => (starSuffixes s).any fun t => matchHere gs t k
    | .dstar, _ => (dstarSuffixes s).any fun t => matchHere gs t k

/-- Acceptable remainders for the compiled suffix `(/.*)?$`: nothing at
all, or a `/` followed by characters that contain no newline (Go's `.`
does not match newline). -/
def suffixOk : List Char → Bool
  | [] => true
  | c :: rest => c == '/' && rest.all fun x => !(x == '\n')

/-- The compiled body followed by `(/.*)?$`, matched at the very front
of `s`. -/
def matchAt (gs : List Glob) (s : List Char) : Bool :=
  matchHere gs s suffixOk

/-- Search for a match of `/ body (/.*)?$` beginning at any `/` inside
`s` (the `/` alternative of the leading `(^|/)` group, tried at every
position as `MatchString` does). -/
def searchSlash (gs : List Glob) : List Char → Bool
  | [] => false
  | c :: rest => (c == '/' && matchAt gs rest) || searchSlash gs rest

/-- Semantics of `regexp.MatchString` on the full compiled expression:
an anchored pattern must match from the start; an unanchored one may
match at the start or right after any `/`. -/
def regexMatch (anchored : Bool) (gs : List Glob) (s : List Char) : Bool :=
  if anchored then matchAt gs s else matchAt gs s || searchSlash gs s

/-- A compiled ignore rule, mirroring the Go `GitignorePattern` struct:
the stripped pattern text, the negation and directory-only markers, and
the compiled regex (anchoring flag plus body). -/
structure GitignorePattern where
  pat : List Char
  isNegative : Bool
  isDir : Bool
  anchored : Bool
  glob : List Glob
deriving DecidableEq

/-- Evaluation of a compiled pattern's regular expression on a relative
path, as `pattern.Regex.MatchString(relPath)` does. -/
def matchesPath (p : GitignorePattern) (relPath : List Char) : Bool :=
  regexMatch p.anchored p.glob relPath

/-- Mirrors `gitignoreToRegex`: a leading `/` anchors the expression to
the start of the path (and is dropped from the body); otherwise the
pattern may match at any path-segment boundary. -/
def gitignoreToRegex (pattern : List Char) : Bool × List Glob :=
  match pattern with
  | '/' :: rest => (true, globOfChars rest)
  | _ => (false, globOfChars pattern)

/-- Mirrors `parsePattern`: skip blank and comment lines, strip a
leading `!` (negation) and a trailing `/` (directory-only), then compile
the rest.  The Go code drops a pattern if `regexp.Compile` fails, but
the expressions built by `gitignoreToRegex` are always valid, so the
compiled pattern is always returned here. -/
def parsePattern (line : List Char) : Option GitignorePattern :=
  if line = [] ∨ line.head? = some '#' then none
  else
    let isNeg := line.head? = some '!'
    let l1 := if isNeg then line.tail else line
    let isDirPat := l1.getLast? = some '/'
    let l2 := if isDirPat then l1.dropLast else l1
    let compiled := gitignoreToRegex l2
    some { pat := l2, isNegative := isNeg, isDir := isDirPat,
           anchored := compiled.1, glob := compiled.2 }

/-- Mirrors `ShouldIgnore` from the point where the relative path has
been computed and normalised (gitignore.go lines 174-202): the root
`"."` is never ignored; otherwise every pattern is scanned in file
order and a matching pattern sets the running `ignored` flag to the
negation of its `IsNegative` field.  The `isDir` argument is accepted
but — exactly as in the source, whose directory-only branch assigns
`matches = matches` — never used. -/
def ShouldIgnore (patterns : List GitignorePattern) (relPath : List Char)
    (isDir : Bool) : Bool :=
  if relPath = ['.'] then false
  else
    patterns.foldl
      (fun ignored p =>
        if matchesPath p relPath then
          (if p.isNegative then false else true)
        else ignored)
      false

/-- Verdict of the last pattern in file order that matches the path
(ignored for a normal pattern, kept for a negated one), or `false` when
no pattern matches.  This is the specification's description of ignore
precedence. -/
def lastMatchVerdict (patterns : List GitignorePattern)
    (relPath : List Char) : Bool :=
  match (patterns.filter fun p => matchesPath p relPath).getLast? with
  | none => false
  | some p => !p.isNegative

/-! ## Application state machine (internal/tui/app.go)

The Go `FocusedPanel` type is an `int`; invalid values such as `999` are
representable, so it is modelled as `Int` with the four named constants
below.  `App` carries exactly the validated state fields the claims are
about (focus, menu-binding mode, debug flag, layout dimensions); the
sub-models resized on a layout change hold no validated state of their
own and are omitted.  Legacy interaction mode is a runtime settings flag
(`settingsManager.IsLegacyMode()`), passed here as a parameter. -/

/-- Mirrors the `FileTreePanel` enum constant (`iota` value 0). -/
def FileTreePanel : Int := 0

/-- Mirrors the `SelectedFilesPanel` enum constant. -/
def SelectedFilesPanel : Int := 1

/-- Mirrors the `ChatPanel` enum constant. -/
def ChatPanel : Int := 2

/-- Mirrors the `FooterMenuPanel` enum constant. -/
def FooterMenuPanel : Int := 3

/-- The validated state fields of the Go `App` struct. -/
structure App where
  width : Int
  height : Int
  focused : Int
  menuBindingMode : Bool
  debugMode : Bool
deriving DecidableEq

/-- Initial application state built by `NewApp`: focus on the file
tree, zero (not-yet-sized) layout dimensions, menu-binding mode off,
and the debug flag from settings (disabled by default). -/
def initialApp : App :=
  { width := 0, height := 0, focused := FileTreePanel,
    menuBindingMode := false, debugMode := false }

/-- The four typed state-change messages of the reactive system. -/
inductive StateMsg where
  | focusChange (panel : Int)
  | menuModeChange (enabled : Bool)
  | debugModeChange (enabled : Bool)
  | layoutChange (width height : Int)
deriving DecidableEq

/-- Mirrors `isValidPanel`: the panel value lies between
`FileTreePanel` and `FooterMenuPanel` inclusive. -/
def isValidPanel (panel : Int) : Bool :=
  decide (FileTreePanel ≤ panel ∧ panel ≤ FooterMenuPanel)

/-- Mirrors `handleStateChange`, the centralized validated handler for
state-change messages.  Side effects that do not touch the validated
state (alert commands, debug logging, dialog and sub-panel resizing)
are omitted. -/
def handleStateChange (legacyMode : Bool) (a : App) (msg : StateMsg) : App :=
  match msg with
  | .focusChange panel =>
    if isValidPanel panel = false then a
    else if a.focused ≠ panel then
      let a1 := { a with focused := panel }
      if legacyMode then
        { a1 with menuBindingMode := decide (panel = FooterMenuPanel) }
      else a1
    else a
  | .menuModeChange enabled =>
    if a.menuBindingMode ≠ enabled then
      let a1 := { a with menuBindingMode := enabled }
      if enabled then { a1 with focused := FooterMenuPanel } else a1
    else a
  | .debugModeChange enabled =>
    if a.debugMode ≠ enabled then { a with debugMode := enabled } else a
  | .layoutChange w h =>
    if w ≤ 0 ∨ h ≤ 0 then a
    else if a.width ≠ w ∨ a.height ≠ h then { a with width := w, height := h }
    else a

/-- Mirrors `validateStateInvariants`; `true` stands for a `nil` error:
focus is a valid panel, menu-binding mode mirrors footer focus in
legacy mode, and the stored dimensions are non-negative. -/
def validateStateInvariants (legacyMode : Bool) (a : App) : Bool :=
  isValidPanel a.focused
    && (if legacyMode then a.menuBindingMode == decide (a.focused = FooterMenuPanel) else true)
    && decide (0 ≤ a.width ∧ 0 ≤ a.height)

/-! ## Tree flattener (internal/filesystem/scanner.go) -/

/-- Mirrors the `FileNode` struct: one filesystem entry with its
(directory-listing ordered) children. -/
inductive FileNode where
  | mk (name : List Char) (path : List Char) (isDir : Bool)
      (children : List FileNode)

/-- Name of a node. -/
def FileNode.name : FileNode → List Char
  | .mk n _ _ _ => n

/-- Path of a node. -/
def FileNode.path : FileNode → List Char
  | .mk _ p _ _ => p

/-- Directory flag of a node. -/
def FileNode.isDir : FileNode → Bool
  | .mk _ _ d _ => d

/-- Children of a node. -/
def FileNode.children : FileNode → List FileNode
  | .mk _ _ _ cs => cs

/-- Mirrors the `FileTreeItem` struct: a flattened display row.  The
`selected` field is left at its zero value `false` by `FlattenTree`
and patched afterwards by the panel. -/
structure FileTreeItem where
  name : List Char
  path : List Char
  isDir : Bool
  level : Int
  expanded : Bool
  selected : Bool
deriving DecidableEq

/-- Row emitted by `FlattenTree` for a node at a given level. -/
def mkRow (n : FileNode) (level : Int) (expanded : List Char → Bool) :
    FileTreeItem :=
  { name := n.name, path := n.path, isDir := n.isDir, level := level,
    expanded := expanded n.path, selected := false }

mutual

/-- Mirrors `FlattenTree`: emit the node's own row, then — only when
the node is a directory marked expanded — the recursively flattened
children, in order, one level deeper.  The source's `for` loop over the
children is expressed by the helper `flattenChildren`. -/
def FlattenTree : FileNode → Int → (List Char → Bool) → List FileTreeItem
  | .mk name path isDir children, level, expanded =>
    { name := name, path := path, isDir := isDir, level := level,
      expanded := expanded path, selected := false } ::
      (if isDir = true ∧ expanded path = true then
        flattenChildren children (level + 1) expanded
      else [])

/-- Concatenation of the flattened children, in child order (the body
of the `for _, child := range root.Children` loop). -/
def flattenChildren : List FileNode → Int → (List Char → Bool) → List FileTreeItem
  | [], _, _ => []
  | c :: cs, level, expanded =>
    FlattenTree c level expanded ++ flattenChildren cs level expanded

end

/-! ## File tree panel cursor and viewport (internal/tui/filetree.go) -/

/-- The cursor/viewport state of `FileTreeModel` that the movement
operations read and write: the flattened item list, the cursor index,
and the viewport's scroll offset and height (both Go `int`s). -/
structure FileTreeModel where
  items : List FileTreeItem
  cursor : Int
  yOffset : Int
  vpHeight : Int
deriving DecidableEq

/-- Mirrors `ensureVisible`: a no-op when the viewport has no height or
the list is empty; otherwise clamp the cursor into the list, scroll
minimally so the cursor lies in the window, and clamp the offset into
`[0, max 0 (len - height)]` (including the final redundant
double-check of the source). -/
def ensureVisible (m : FileTreeModel) : FileTreeModel :=
  if m.vpHeight ≤ 0 ∨ m.items.length = 0 then m
  else
    let len : Int := m.items.length
    let c1 := if m.cursor < 0 then 0 else m.cursor
    let c2 := if c1 ≥ len then len - 1 else c1
    let top := m.yOffset
    let bottom := m.yOffset + m.vpHeight - 1
    let o1 :=
      if c2 < top then c2
      else if c2 > bottom then c2 - m.vpHeight + 1
      else m.yOffset
    let maxOffset := if len - m.vpHeight < 0 then 0 else len - m.vpHeight
    let o2 := if o1 < 0 then 0 else o1
    let o3 := if o2 > maxOffset then maxOffset else o2
    let o4 :=
      if o3 > 0 ∧ o3 + m.vpHeight > len then
        (if 0 > len - m.vpHeight then 0 else len - m.vpHeight)
      else o3
    { m with cursor := c2, yOffset := o4 }

/-- The six cursor-movement key groups handled by `Update`. -/
inductive CursorOp where
  | up
  | down
  | pageDown
  | pageUp
  | home
  | endKey
deriving DecidableEq

/-- Mirrors the cursor-movement cases of `FileTreeModel.Update`
(`up`/`k`, `down`/`j`, `pgdown`/`ctrl+f`, `pgup`/`ctrl+b`, `home`/`g`,
`end`/`G`), each followed by its `ensureVisible` call exactly where the
source places it. -/
def applyCursorOp (m : FileTreeModel) (op : CursorOp) : FileTreeModel :=
  match op with
  | .up =>
    ensureVisible (if m.cursor > 0 then { m with cursor := m.cursor - 1 } else m)
  | .down =>
    ensureVisible
      (if m.cursor < (m.items.length : Int) - 1 then
        { m with cursor := m.cursor + 1 }
      else m)
  | .pageDown =>
    if m.vpHeight > 0 then
      let c1 := m.cursor + m.vpHeight
      let c2 := if c1 ≥ (m.items.length : Int) then (m.items.length : Int) - 1 else c1
      ensureVisible { m with cursor := c2 }
    else m
  | .pageUp =>
    if m.vpHeight > 0 then
      let c1 := m.cursor - m.vpHeight
      let c2 := if c1 < 0 then 0 else c1
      ensureVisible { m with cursor := c2 }
    else m
  | .home => ensureVisible { m with cursor := 0 }
  | .endKey =>
    ensureVisible
      (if m.items.length > 0 then { m with cursor := (m.items.length : Int) - 1 }
      else m)

/-! ## Selected files panel (internal/tui/selected.go, app.go) -/

/-- Mirrors the `SelectedFile` struct: display name plus path. -/
structure SelectedFile where
  name : List Char
  path : List Char
deriving DecidableEq

/-- The list/cursor state of `SelectedFilesModel`. -/
structure SelectedFilesModel where
  files : List SelectedFile
  cursor : Int
deriving DecidableEq

/-- Initial state built by `NewSelectedFilesModel`. -/
def initialSelectedFilesModel : SelectedFilesModel :=
  { files := [], cursor := 0 }

/-- Mirrors `AddFile`: return unchanged when some entry already has the
given path, otherwise append a new entry. -/
def AddFile (m : SelectedFilesModel) (name path : List Char) :
    SelectedFilesModel :=
  if m.files.any fun f => f.path == path then m
  else { m with files := m.files ++ [{ name := name, path := path }] }

/-- Mirrors the index-based `removeFile`: out-of-range indices are
no-ops; otherwise delete the entry and pull the cursor back inside the
shortened list. -/
def removeFileAt (m : SelectedFilesModel) (index : Int) : SelectedFilesModel :=
  if index < 0 ∨ index ≥ (m.files.length : Int) then m
  else
    let files := m.files.eraseIdx index.toNat
    let c1 :=
      if m.cursor ≥ (files.length : Int) ∧ files.length > 0 then
        (files.length : Int) - 1
      else m.cursor
    let c2 := if files.length = 0 then 0 else c1
    { files := files, cursor := c2 }

/-- Mirrors `RemoveFile`: delete the first entry with the given path,
if any. -/
def RemoveFile (m : SelectedFilesModel) (path : List Char) :
    SelectedFilesModel :=
  match m.files.findIdx? (fun f => f.path == path) with
  | some i => removeFileAt m (i : Int)
  | none => m

/-- Mirrors `ClearAllFiles`. -/
def ClearAllFiles (_ : SelectedFilesModel) : SelectedFilesModel :=
  { files := [], cursor := 0 }

/-- Mirrors `filepath.Base` on slash-separated paths: empty input gives
`"."`, a path of only separators gives `"/"`, otherwise the last
component after trailing separators are removed.  Only the display-name
field of `SelectedFile` - irrelevant to path uniqueness - depends on it. -/
def baseName (p : List Char) : List Char :=
  if p = [] then ['.']
  else
    let r := p.reverse.dropWhile fun c => c == '/'
    if r = [] then ['/']
    else (r.takeWhile fun c => !(c == '/')).reverse

/-- Mirrors `updateSelectedFilesFromSelection` in app.go: clear the
derived list, re-add every path mapped to `true` in the selection
snapshot (Go map iteration order is arbitrary, so the snapshot is
taken here as an arbitrarily ordered association list), then clamp the
cursor. -/
def updateSelectedFilesFromSelection (m : SelectedFilesModel)
    (selection : List (List Char × Bool)) : SelectedFilesModel :=
  let m1 := { m with files := [] }
  let m2 := selection.foldl
    (fun (acc : SelectedFilesModel) (pb : List Char × Bool) =>
      if pb.2 then AddFile acc (baseName pb.1) pb.1 else acc) m1
  if m2.files.length = 0 then { m2 with cursor := 0 }
  else if m2.cursor ≥ (m2.files.length : Int) then
    { m2 with cursor := (m2.files.length : Int) - 1 }
  else m2

/-- The operations that rebuild or edit the derived selected-files
list: the two removal paths and the clear action of selected.go, plus
`AddFile` and the wholesale resynchronization of app.go. -/
inductive SelOp where
  | add (name path : List Char)
  | removeByPath (path : List Char)
  | removeAt (index : Int)
  | clear
  | resync (selection : List (List Char × Bool))

/-- Dispatch of one selected-files operation. -/
def applySelOp (m : SelectedFilesModel) : SelOp → SelectedFilesModel
  | .add name path => AddFile m name path
  | .removeByPath path => RemoveFile m path
  | .removeAt index => removeFileAt m index
  | .clear => ClearAllFiles m
  | .resync selection => updateSelectedFilesFromSelection m selection

/-- Path-uniqueness of the derived list: no two entries share a path. -/
def pathsUnique (m : SelectedFilesModel) : Prop :=
  m.files.Pairwise fun f g => f.path ≠ g.path

/-! ## Helper lemmas -/

/-- The running `ignored` flag computed by the pattern loop equals the
verdict of the last matching pattern, falling back to the accumulator
when nothing matches. -/
theorem foldl_ignore_eq_lastMatch (relPath : List Char) :
    ∀ (ps : List GitignorePattern) (b : Bool),
      ps.foldl
        (fun ignored p =>
          if matchesPath p relPath then
            (if p.isNegative then false else true)
          else ignored) b
      = match (ps.filter fun p => matchesPath p relPath).getLast? with
        | none => b
        | some p => !p.isNegative := by
  intro ps
  induction ps with
  | nil => intro b; rfl
  | cons p rest ih =>
    intro b
    rw [List.foldl_cons, ih]
    by_cases hm : matchesPath p relPath = true
    · cases hfr : (rest.filter fun q => matchesPath q relPath) with
      | nil =>
        simp only [hfr, List.filter_cons, if_pos hm]
        cases hneg : p.isNegative <;> simp [hm, hneg]
      | cons x xs =>
        simp only [hfr, List.filter_cons, if_pos hm, List.getLast?_cons_cons]
        cases hgl : (x :: xs).getLast? with
        | none => exact absurd (List.getLast?_eq_none_iff.mp hgl) (List.cons_ne_nil x xs)
        | some q => rfl
    · simp only [List.filter_cons, if_neg hm]

/-- Every string is the first element of its own star-suffix list
(consume nothing). -/
theorem self_mem_starSuffixes (s : List Char) : s ∈ starSuffixes s := by
  cases s <;> simp [starSuffixes]

/-- Every string is the first element of its own dot-star-suffix list. -/
theorem self_mem_dstarSuffixes (s : List Char) : s ∈ dstarSuffixes s := by
  cases s <;> simp [dstarSuffixes]

/-- Extending the subject on the right extends each star-reachable
suffix on the right. -/
theorem mem_starSuffixes_append {t s : List Char} (u : List Char)
    (h : t ∈ starSuffixes s) : t ++ u ∈ starSuffixes (s ++ u) := by
  induction s with
  | nil =>
    simp only [starSuffixes, List.mem_singleton] at h
    subst h
    simpa using self_mem_starSuffixes u
  | cons c s2 ih =>
    simp only [starSuffixes, List.mem_cons] at h
    rcases h with h1 | h2
    · subst h1
      exact self_mem_starSuffixes _
    · by_cases hc : c = '/'
      · rw [if_pos hc] at h2
        cases h2
      · rw [if_neg hc] at h2
        show t ++ u ∈ starSuffixes (c :: (s2 ++ u))
        simp only [starSuffixes]
        exact List.mem_cons_of_mem _ (by rw [if_neg hc]; exact ih h2)

/-- Extending the subject on the right extends each dot-star-reachable
suffix on the right. -/
theorem mem_dstarSuffixes_append {t s : List Char} (u : List Char)
    (h : t ∈ dstarSuffixes s) : t ++ u ∈ dstarSuffixes (s ++ u) := by
  induction s with
  | nil =>
    simp only [dstarSuffixes, List.mem_singleton] at h
    subst h
    simpa using self_mem_dstarSuffixes u
  | cons c s2 ih =>
    simp only [dstarSuffixes, List.mem_cons] at h
    rcases h with h1 | h2
    · subst h1
      exact self_mem_dstarSuffixes _
    · by_cases hc : c = '\n'
      · rw [if_pos hc] at h2
        cases h2
      · rw [if_neg hc] at h2
        show t ++ u ∈ dstarSuffixes (c :: (s2 ++ u))
        simp only [dstarSuffixes]
        exact List.mem_cons_of_mem _ (by rw [if_neg hc]; exact ih h2)

/-- Body matching is stable under appending `u` to the subject,
provided the continuation is correspondingly stable. -/
theorem matchHere_append (u : List Char) (k kk : List Char → Bool)
    (hk : ∀ t, k t = true → kk (t ++ u) = true) :
    ∀ (gs : List Glob) (s : List Char),
      matchHere gs s k = true → matchHere gs (s ++ u) kk = true := by
  intro gs
  induction gs with
  | nil => exact fun s h => hk s h
  | cons g gs ih =>
    intro s h
    cases g with
    | lit c =>
      cases s with
      | nil => simp [matchHere] at h
      | cons x t =>
        simp only [matchHere, Bool.and_eq_true] at h
        simp only [List.cons_append, matchHere, Bool.and_eq_true]
        exact ⟨h.1, ih t h.2⟩
    | qmark =>
      cases s with
      | nil => simp [matchHere] at h
      | cons x t =>
        simp only [matchHere, Bool.and_eq_true] at h
        simp only [List.cons_append, matchHere, Bool.and_eq_true]
        exact ⟨h.1, ih t h.2⟩
    | star =>
      simp only [matchHere, List.any_eq_true] at h
      simp only [matchHere, List.any_eq_true]
      obtain ⟨t, ht, hmt⟩ := h
      exact ⟨t ++ u, mem_starSuffixes_append u ht, ih t hmt⟩
    | dstar =>
      simp only [matchHere, List.any_eq_true] at h
      simp only [matchHere, List.any_eq_true]
      obtain ⟨t, ht, hmt⟩ := h
      exact ⟨t ++ u, mem_dstarSuffixes_append u ht, ih t hmt⟩

/-- An acceptable remainder stays acceptable after appending one more
`/`-separated, newline-free component. -/
theorem suffixOk_append (rest : List Char)
    (hrest : (rest.all fun c => !(c == '\n')) = true) :
    ∀ t, suffixOk t = true → suffixOk (t ++ '/' :: rest) = true := by
  intro t ht
  cases t with
  | nil => simpa [suffixOk] using hrest
  | cons c t2 =>
    simp only [suffixOk, Bool.and_eq_true] at ht
    simp only [List.cons_append, suffixOk, Bool.and_eq_true]
    refine ⟨ht.1, ?_⟩
    rw [List.all_append]
    simp [ht.2, hrest]

/-- Front-anchored matching cascades to nested paths. -/
theorem matchAt_append {gs : List Glob} {d : List Char} (rest : List Char)
    (hrest : (rest.all fun c => !(c == '\n')) = true)
    (h : matchAt gs d = true) : matchAt gs (d ++ '/' :: rest) = true :=
  matchHere_append ('/' :: rest) suffixOk suffixOk (suffixOk_append rest hrest) gs d h

/-- Slash-anchored search cascades to nested paths. -/
theorem searchSlash_append {gs : List Glob} (rest : List Char)
    (hrest : (rest.all fun c => !(c == '\n')) = true) :
    ∀ d, searchSlash gs d = true → searchSlash gs (d ++ '/' :: rest) = true := by
  intro d
  induction d with
  | nil => intro h; simp [searchSlash] at h
  | cons c d2 ih =>
    intro h
    simp only [searchSlash, Bool.or_eq_true, Bool.and_eq_true] at h
    simp only [List.cons_append, searchSlash, Bool.or_eq_true, Bool.and_eq_true]
    rcases h with ⟨hc, hm⟩ | h2
    · exact Or.inl ⟨hc, matchAt_append rest hrest hm⟩
    · exact Or.inr (ih h2)

/-- Directory cascade at the regex level: if a compiled pattern matches
`d`, it also matches `d ++ "/" ++ rest` for newline-free `rest`, thanks
to the `(/.*)?$` suffix every compiled pattern receives. -/
theorem matchesPath_append {p : GitignorePattern} {d : List Char}
    (rest : List Char) (hrest : (rest.all fun c => !(c == '\n')) = true)
    (h : matchesPath p d = true) :
    matchesPath p (d ++ '/' :: rest) = true := by
  unfold matchesPath regexMatch at h ⊢
  by_cases hanch : p.anchored = true
  · rw [if_pos hanch] at h ⊢
    exact matchAt_append rest hrest h
  · rw [if_neg hanch] at h ⊢
    rw [Bool.or_eq_true] at h ⊢
    rcases h with h1 | h2
    · exact Or.inl (matchAt_append rest hrest h1)
    · exact Or.inr (searchSlash_append rest hrest d h2)

/-- A nested path contains a separator and therefore cannot be the
root path `"."`. -/
theorem nested_ne_root (d rest : List Char) : d ++ '/' :: rest ≠ ['.'] := by
  cases d with
  | nil => simp
  | cons c d2 => simp

/-! ## Claim theorems -/

/-- C1: the claimed legacy-mode invariant `menuBindingMode = (focus =
FooterMenuPanel)` is broken by the code: starting from the initial
state, processing `MenuModeChange(true)` and then `MenuModeChange(false)`
(legal FocusChange/MenuModeChange traffic) leaves focus on the footer
panel with menu-binding mode off, a state the program's own
`validateStateInvariants` rejects. -/
theorem C1_legacy_focus_invariant_fails_on_menu_exit :
    handleStateChange true
        (handleStateChange true initialApp (.menuModeChange true))
        (.menuModeChange false)
      = { width := 0, height := 0, focused := FooterMenuPanel,
          menuBindingMode := false, debugMode := false }
    ∧ validateStateInvariants true
        (handleStateChange true
          (handleStateChange true initialApp (.menuModeChange true))
          (.menuModeChange false)) = false := by
  decide

/-- C2 (amended): for every pattern list and every relative path other
than the root path `"."`, `ShouldIgnore` returns the verdict of the
last pattern in file order whose compiled expression matches the path
(ignored for a normal pattern, kept for a negated one), and `false`
when no pattern matches. -/
theorem C2_ignore_precedence_last_match (patterns : List GitignorePattern)
    (relPath : List Char) (isDir : Bool) (hroot : relPath ≠ ['.']) :
    ShouldIgnore patterns relPath isDir = lastMatchVerdict patterns relPath := by
  unfold ShouldIgnore lastMatchVerdict
  rw [if_neg hroot, foldl_ignore_eq_lastMatch]

/-- C2 counterexample: the claim as stated fails at the root path `"."`:
the compiled pattern `*` matches `"."` and is not negated, so the
last-matching-pattern rule demands `true`, but `ShouldIgnore` returns
`false` because of its unconditional root exemption. -/
theorem C2_counterexample_root_path :
    ShouldIgnore ((parsePattern (String.toList "*")).toList)
        (String.toList ".") false = false
    ∧ lastMatchVerdict ((parsePattern (String.toList "*")).toList)
        (String.toList ".") = true := by
  decide

/-- C2 witness: concrete instance of the amended claim, with the
classic `*.log` / `!important.log` pattern pair. -/
theorem C2_ignore_precedence_last_match_witness :
    String.toList "error.log" ≠ ['.']
    ∧ ShouldIgnore
        ((parsePattern (String.toList "*.log")).toList
          ++ (parsePattern (String.toList "!important.log")).toList)
        (String.toList "error.log") false
      = lastMatchVerdict
          ((parsePattern (String.toList "*.log")).toList
            ++ (parsePattern (String.toList "!important.log")).toList)
          (String.toList "error.log") :=
  ⟨by decide, C2_ignore_precedence_last_match _ _ false (by decide)⟩

/-- C3 (amended): if a directory-only, non-negated pattern somewhere in
the list matches a directory path `d`, then every path nested under `d`
whose nested part contains no newline character is also ignored,
provided no negated pattern placed after it in file order matches the
nested path.  (The newline proviso is forced by Go's regexp `.`, which
the compiled `(/.*)?$` suffix relies on and which does not match
newline.) -/
theorem C3_directory_cascade (l1 l2 : List GitignorePattern)
    (p : GitignorePattern) (d rest : List Char) (isDir : Bool)
    (hdir : p.isDir = true) (hneg : p.isNegative = false)
    (hmatch : matchesPath p d = true)
    (hnl : (rest.all fun c => !(c == '\n')) = true)
    (hlater : ∀ q ∈ l2, q.isNegative = true →
      matchesPath q (d ++ '/' :: rest) = false) :
    ShouldIgnore (l1 ++ p :: l2) (d ++ '/' :: rest) isDir = true := by
  have hpm : matchesPath p (d ++ '/' :: rest) = true :=
    matchesPath_append rest hnl hmatch
  unfold ShouldIgnore
  rw [if_neg (nested_ne_root d rest), foldl_ignore_eq_lastMatch,
    List.filter_append, List.filter_cons, if_pos hpm, List.getLast?_append]
  cases hfl2 : (l2.filter fun q => matchesPath q (d ++ '/' :: rest)) with
  | nil => simp [hneg]
  | cons x xs =>
    rw [List.getLast?_cons_cons,
      List.getLast?_eq_getLast (x :: xs) (List.cons_ne_nil x xs)]
    have hrmem : (x :: xs).getLast (List.cons_ne_nil x xs)
        ∈ List.filter (fun q => matchesPath q (d ++ '/' :: rest)) l2 := by
      rw [hfl2]
      exact List.getLast_mem _
    rcases List.mem_filter.mp hrmem with ⟨hrl2, hrmatch⟩
    cases hval : ((x :: xs).getLast (List.cons_ne_nil x xs)).isNegative with
    | false => simp [hval]
    | true =>
      rw [hlater _ hrl2 hval] at hrmatch
      exact absurd hrmatch (by simp)

/-- C3 counterexample: the claim as stated (every nested path) fails on
a nested name containing a newline: the compiled pattern `build/`
matches the directory `build` but not `build/a\nb`, because Go's `.`
in the generated `(/.*)?$` suffix does not match newline, so the file
is not ignored. -/
theorem C3_counterexample_newline :
    ((parsePattern (String.toList "build/")).map fun p =>
      matchesPath p (String.toList "build")) = some true
    ∧ ((parsePattern (String.toList "build/")).map fun p => p.isDir) = some true
    ∧ ((parsePattern (String.toList "build/")).map fun p => p.isNegative) = some false
    ∧ ShouldIgnore (parsePattern (String.toList "build/")).toList
        (String.toList "build/a\nb") false = false := by
  decide

/-- C3 witness: the compiled `build/` pattern matches the directory
`build`, and the nested file `build/output.txt` is ignored. -/
theorem C3_directory_cascade_witness :
    matchesPath
        { pat := String.toList "build", isNegative := false, isDir := true,
          anchored := false, glob := globOfChars (String.toList "build") }
        (String.toList "build") = true
    ∧ ShouldIgnore
        [{ pat := String.toList "build", isNegative := false, isDir := true,
           anchored := false, glob := globOfChars (String.toList "build") }]
        (String.toList "build" ++ '/' :: String.toList "output.txt") false = true :=
  ⟨by decide,
   C3_directory_cascade [] []
     { pat := String.toList "build", isNegative := false, isDir := true,
       anchored := false, glob := globOfChars (String.toList "build") }
     (String.toList "build") (String.toList "output.txt") false
     rfl rfl (by decide) (by decide) (by simp)⟩

/-- C4: the claimed cursor bound `0 ≤ cursor < N` (with `cursor = 0`
when `N = 0`) is broken by the code: a page-down on an empty item list
with a sized viewport sets the cursor to `len(items) - 1 = -1`, because
the `pgdown` branch clamps with `cursor = len - 1` without the
emptiness guard every other branch has. -/
theorem C4_pagedown_on_empty_list_sets_cursor_negative :
    (applyCursorOp { items := [], cursor := 0, yOffset := 0, vpHeight := 1 }
      .pageDown).cursor = -1 := by
  decide

set_option maxHeartbeats 1000000 in
/-- After `ensureVisible`, when the viewport has positive height and
the list is non-empty, the cursor lies inside the visible window. -/
theorem ensureVisible_bounds (m : FileTreeModel) (hh : 1 ≤ m.vpHeight)
    (hne : m.items ≠ []) :
    (ensureVisible m).yOffset ≤ (ensureVisible m).cursor
    ∧ (ensureVisible m).cursor ≤ (ensureVisible m).yOffset + m.vpHeight - 1 := by
  have hlen : 0 < m.items.length := List.length_pos.mpr hne
  unfold ensureVisible
  rw [if_neg (by omega)]
  dsimp only
  split_ifs <;> omega

/-- C5: after any cursor-movement operation, if the viewport height is
at least 1 and the item list is non-empty, the viewport offset
satisfies `offset ≤ cursor ≤ offset + height - 1`. -/
theorem C5_viewport_containment (m : FileTreeModel) (op : CursorOp)
    (hh : 1 ≤ m.vpHeight) (hne : m.items ≠ []) :
    (applyCursorOp m op).yOffset ≤ (applyCursorOp m op).cursor
    ∧ (applyCursorOp m op).cursor
        ≤ (applyCursorOp m op).yOffset + m.vpHeight - 1 := by
  cases op with
  | up =>
    dsimp only [applyCursorOp]
    split
    · exact ensureVisible_bounds _ hh hne
    · exact ensureVisible_bounds _ hh hne
  | down =>
    dsimp only [applyCursorOp]
    split
    · exact ensureVisible_bounds _ hh hne
    · exact ensureVisible_bounds _ hh hne
  | pageDown =>
    dsimp only [applyCursorOp]
    rw [if_pos (by omega : m.vpHeight > 0)]
    exact ensureVisible_bounds _ hh hne
  | pageUp =>
    dsimp only [applyCursorOp]
    rw [if_pos (by omega : m.vpHeight > 0)]
    exact ensureVisible_bounds _ hh hne
  | home =>
    dsimp only [applyCursorOp]
    exact ensureVisible_bounds _ hh hne
  | endKey =>
    dsimp only [applyCursorOp]
    split
    · exact ensureVisible_bounds _ hh hne
    · exact ensureVisible_bounds _ hh hne

/-- C5 witness: a one-item list in a height-1 viewport after an `up`
move keeps the cursor inside the window. -/
theorem C5_viewport_containment_witness :
    (applyCursorOp
        { items := [{ name := [], path := [], isDir := false, level := 0,
                      expanded := false, selected := false }],
          cursor := 0, yOffset := 0, vpHeight := 1 } .up).yOffset
      ≤ (applyCursorOp
          { items := [{ name := [], path := [], isDir := false, level := 0,
                        expanded := false, selected := false }],
            cursor := 0, yOffset := 0, vpHeight := 1 } .up).cursor
    ∧ (applyCursorOp
        { items := [{ name := [], path := [], isDir := false, level := 0,
                      expanded := false, selected := false }],
          cursor := 0, yOffset := 0, vpHeight := 1 } .up).cursor
      ≤ (applyCursorOp
          { items := [{ name := [], path := [], isDir := false, level := 0,
                        expanded := false, selected := false }],
            cursor := 0, yOffset := 0, vpHeight := 1 } .up).yOffset
        + ({ items := [{ name := [], path := [], isDir := false, level := 0,
                         expanded := false, selected := false }],
             cursor := 0, yOffset := 0,
             vpHeight := 1 } : FileTreeModel).vpHeight - 1 :=
  C5_viewport_containment _ .up (by decide) (by decide)

/-- C6: a `FocusChange` carrying a panel value outside the four valid
enum values, and a `LayoutChange` with a non-positive width or height,
are rejected without mutating any validated state field. -/
theorem C6_rejected_transition_noop (legacyMode : Bool) (a : App)
    (panel w h : Int) (hpanel : isValidPanel panel = false)
    (hdim : w ≤ 0 ∨ h ≤ 0) :
    handleStateChange legacyMode a (.focusChange panel) = a
    ∧ handleStateChange legacyMode a (.layoutChange w h) = a := by
  constructor
  · simp [handleStateChange, hpanel]
  · simp [handleStateChange, if_pos hdim]

/-- C6 witness: the out-of-range panel `999` and the zero-width layout
`0 × 24` leave the initial state untouched. -/
theorem C6_rejected_transition_noop_witness :
    handleStateChange false initialApp (.focusChange 999) = initialApp
    ∧ handleStateChange false initialApp (.layoutChange 0 24) = initialApp :=
  C6_rejected_transition_noop false initialApp 999 0 24 (by decide) (by decide)

/-- C8: a `MenuModeChange` whose value equals the current menu-binding
mode is a no-op, and enabling menu mode from the disabled state sets
the mode and forces focus to the footer menu panel. -/
theorem C8_menu_mode_change (legacyMode : Bool) (a : App) (enabled : Bool) :
    (a.menuBindingMode = enabled →
      handleStateChange legacyMode a (.menuModeChange enabled) = a)
    ∧ (a.menuBindingMode = false →
      handleStateChange legacyMode a (.menuModeChange true)
        = { a with menuBindingMode := true, focused := FooterMenuPanel }) := by
  constructor
  · intro heq
    simp [handleStateChange, heq]
  · intro hoff
    simp [handleStateChange, hoff]

/-- C8 witness: from the initial state (menu mode off), a disabling
message is a no-op and an enabling message parks focus on the footer. -/
theorem C8_menu_mode_change_witness :
    handleStateChange false initialApp (.menuModeChange false) = initialApp
    ∧ handleStateChange false initialApp (.menuModeChange true)
      = { initialApp with menuBindingMode := true, focused := FooterMenuPanel } :=
  ⟨(C8_menu_mode_change false initialApp false).1 rfl,
   (C8_menu_mode_change false initialApp false).2 rfl⟩

/-- The helper loop of `FlattenTree` concatenates the per-child
flattenings in child order. -/
theorem flattenChildren_eq_flatten_map (cs : List FileNode) (level : Int)
    (exp : List Char → Bool) :
    flattenChildren cs level exp
      = (cs.map fun c => FlattenTree c level exp).flatten := by
  induction cs with
  | nil => rfl
  | cons c cs ih => simp [flattenChildren, ih]

/-- C7: for a directory node, the child blocks appear in the flattened
output — immediately after the directory's own row, contiguously, in
child order, each block headed by the child's own row at level
`parent + 1` — exactly when the expansion map holds `true` for the
directory's path; when it holds `false` the output is the single
directory row, so collapsing removes exactly the child blocks (with
all their expanded descendants) and nothing else. -/
theorem C7_flatten_expansion_coupling (d : FileNode) (lvl : Int)
    (exp : List Char → Bool) (hdir : d.isDir = true) :
    (exp d.path = true →
      FlattenTree d lvl exp
        = mkRow d lvl exp
            :: (d.children.map fun c => FlattenTree c (lvl + 1) exp).flatten
      ∧ ∀ c ∈ d.children,
          (FlattenTree c (lvl + 1) exp).head? = some (mkRow c (lvl + 1) exp))
    ∧ (exp d.path = false → FlattenTree d lvl exp = [mkRow d lvl exp]) := by
  obtain ⟨n, p, dirFlag, cs⟩ := d
  simp only [FileNode.isDir] at hdir
  simp only [FileNode.path, FileNode.children]
  constructor
  · intro hexp
    constructor
    · simp [FlattenTree, hdir, hexp, flattenChildren_eq_flatten_map, mkRow,
        FileNode.name, FileNode.path, FileNode.isDir, FileNode.children]
    · intro c _
      obtain ⟨n2, p2, d2, cs2⟩ := c
      rfl
  · intro hexp
    simp [FlattenTree, hdir, hexp, mkRow,
      FileNode.name, FileNode.path, FileNode.isDir]

/-- C7 witness: a concrete two-level directory under an all-expanded
map satisfies the coupling statement. -/
theorem C7_flatten_expansion_coupling_witness :
    (FileNode.mk (String.toList "src") (String.toList "src") true
        [FileNode.mk (String.toList "a.txt") (String.toList "src/a.txt")
          false []]).isDir = true
    ∧ (((fun _ => true) : List Char → Bool)
          (FileNode.mk (String.toList "src") (String.toList "src") true
            [FileNode.mk (String.toList "a.txt") (String.toList "src/a.txt")
              false []]).path = true →
        FlattenTree
            (FileNode.mk (String.toList "src") (String.toList "src") true
              [FileNode.mk (String.toList "a.txt") (String.toList "src/a.txt")
                false []]) 0 (fun _ => true)
          = mkRow
              (FileNode.mk (String.toList "src") (String.toList "src") true
                [FileNode.mk (String.toList "a.txt") (String.toList "src/a.txt")
                  false []]) 0 (fun _ => true)
              :: ((FileNode.mk (String.toList "src") (String.toList "src") true
                    [FileNode.mk (String.toList "a.txt")
                      (String.toList "src/a.txt") false []]).children.map
                   fun c => FlattenTree c (0 + 1) (fun _ => true)).flatten
        ∧ ∀ c ∈ (FileNode.mk (String.toList "src") (String.toList "src") true
              [FileNode.mk (String.toList "a.txt") (String.toList "src/a.txt")
                false []]).children,
            (FlattenTree c (0 + 1) (fun _ => true)).head?
              = some (mkRow c (0 + 1) (fun _ => true)))
    ∧ (((fun _ => true) : List Char → Bool)
          (FileNode.mk (String.toList "src") (String.toList "src") true
            [FileNode.mk (String.toList "a.txt") (String.toList "src/a.txt")
              false []]).path = false →
        FlattenTree
            (FileNode.mk (String.toList "src") (String.toList "src") true
              [FileNode.mk (String.toList "a.txt") (String.toList "src/a.txt")
                false []]) 0 (fun _ => true)
          = [mkRow
              (FileNode.mk (String.toList "src") (String.toList "src") true
                [FileNode.mk (String.toList "a.txt") (String.toList "src/a.txt")
                  false []]) 0 (fun _ => true)]) :=
  ⟨rfl,
   C7_flatten_expansion_coupling
     (FileNode.mk (String.toList "src") (String.toList "src") true
       [FileNode.mk (String.toList "a.txt") (String.toList "src/a.txt")
         false []]) 0 (fun _ => true) rfl⟩

/-- Adding a file preserves path-uniqueness of the derived list. -/
theorem pathsUnique_AddFile {m : SelectedFilesModel} (h : pathsUnique m)
    (name path : List Char) : pathsUnique (AddFile m name path) := by
  unfold AddFile
  split
  · exact h
  · rename_i hany
    unfold pathsUnique at h ⊢
    dsimp only
    rw [List.pairwise_append]
    refine ⟨h, List.pairwise_singleton _ _, ?_⟩
    intro f hf g hg
    simp only [List.mem_singleton] at hg
    subst hg
    intro hcontra
    apply hany
    rw [List.any_eq_true]
    exact ⟨f, hf, by simp [hcontra]⟩

/-- Removing an entry by index preserves path-uniqueness. -/
theorem pathsUnique_removeFileAt {m : SelectedFilesModel}
    (h : pathsUnique m) (index : Int) :
    pathsUnique (removeFileAt m index) := by
  unfold removeFileAt
  split
  · exact h
  · exact List.Pairwise.sublist (List.eraseIdx_sublist _ _) h

/-- Removing an entry by path preserves path-uniqueness. -/
theorem pathsUnique_RemoveFile {m : SelectedFilesModel}
    (h : pathsUnique m) (path : List Char) :
    pathsUnique (RemoveFile m path) := by
  unfold RemoveFile
  cases m.files.findIdx? fun f => f.path == path with
  | none => exact h
  | some i => exact pathsUnique_removeFileAt h i

/-- The re-add loop of the resynchronization preserves
path-uniqueness of the accumulator. -/
theorem pathsUnique_selFold :
    ∀ (selection : List (List Char × Bool)) (acc : SelectedFilesModel),
      pathsUnique acc →
      pathsUnique (selection.foldl
        (fun (acc : SelectedFilesModel) (pb : List Char × Bool) =>
          if pb.2 then AddFile acc (baseName pb.1) pb.1 else acc) acc) := by
  intro selection
  induction selection with
  | nil => exact fun acc h => h
  | cons pb rest ih =>
    intro acc h
    rw [List.foldl_cons]
    apply ih
    by_cases hb : pb.2 = true
    · rw [if_pos hb]
      exact pathsUnique_AddFile h _ _
    · rw [if_neg hb]
      exact h

/-- A full resynchronization from a selection snapshot yields a
path-unique list. -/
theorem pathsUnique_updateSelected (m : SelectedFilesModel)
    (selection : List (List Char × Bool)) :
    pathsUnique (updateSelectedFilesFromSelection m selection) := by
  unfold updateSelectedFilesFromSelection
  dsimp only
  have hfold := pathsUnique_selFold selection { m with files := [] }
    List.Pairwise.nil
  split_ifs <;> exact hfold

/-- Every selected-files operation preserves path-uniqueness. -/
theorem pathsUnique_applySelOp (m : SelectedFilesModel) (op : SelOp)
    (h : pathsUnique m) : pathsUnique (applySelOp m op) := by
  cases op with
  | add name path => exact pathsUnique_AddFile h name path
  | removeByPath path => exact pathsUnique_RemoveFile h path
  | removeAt index => exact pathsUnique_removeFileAt h index
  | clear => exact List.Pairwise.nil
  | resync selection => exact pathsUnique_updateSelected m selection

/-- C10: `AddFile` with an already-present path leaves the model
unchanged, and every sequence of add, remove, and resynchronization
operations starting from the empty panel keeps the derived list free of
duplicate paths. -/
theorem C10_selected_files_path_unique :
    (∀ (m : SelectedFilesModel) (name path : List Char),
      (m.files.any fun f => f.path == path) = true → AddFile m name path = m)
    ∧ ∀ (ops : List SelOp),
        pathsUnique (ops.foldl applySelOp initialSelectedFilesModel) := by
  constructor
  · intro m name path h
    unfold AddFile
    rw [if_pos h]
  · have hfold : ∀ (ops : List SelOp) (m : SelectedFilesModel),
        pathsUnique m → pathsUnique (ops.foldl applySelOp m) := by
      intro ops
      induction ops with
      | nil => exact fun m h => h
      | cons op rest ih =>
        intro m h
        rw [List.foldl_cons]
        exact ih _ (pathsUnique_applySelOp m op h)
    exact fun ops => hfold ops _ List.Pairwise.nil

/-- C10 witness: re-adding an already-selected path is a no-op, and a
concrete operation sequence with a duplicate add and a duplicate
resynchronization entry still yields a duplicate-free list. -/
theorem C10_selected_files_path_unique_witness :
    AddFile
        { files := [{ name := String.toList "a.txt",
                      path := String.toList "src/a.txt" }], cursor := 0 }
        (String.toList "a.txt") (String.toList "src/a.txt")
      = { files := [{ name := String.toList "a.txt",
                      path := String.toList "src/a.txt" }], cursor := 0 }
    ∧ pathsUnique
        ([SelOp.add (String.toList "a.txt") (String.toList "src/a.txt"),
          SelOp.add (String.toList "b.txt") (String.toList "src/a.txt"),
          SelOp.resync [(String.toList "x", true), (String.toList "x", true)]].foldl
          applySelOp initialSelectedFilesModel) :=
  ⟨C10_selected_files_path_unique.1 _ _ _ (by decide),
   C10_selected_files_path_unique.2 _⟩

/-- C9: the `isDir` argument of `ShouldIgnore` never affects the
decision (the directory-only branch in the source assigns
`matches = matches`), and in particular a plain file whose relative
path is `build` is ignored under the directory-only pattern `build/`. -/
theorem C9_isdir_argument_irrelevant :
    (∀ (patterns : List GitignorePattern) (relPath : List Char) (d1 d2 : Bool),
      ShouldIgnore patterns relPath d1 = ShouldIgnore patterns relPath d2)
    ∧ ShouldIgnore ((parsePattern (String.toList "build/")).toList)
        (String.toList "build") false = true :=
  ⟨fun _ _ _ _ => rfl, by decide⟩

end CodingPrompts
